import Mathlib

/-!
# kUSD: wallet accounts, header JSON codec, whisper relay policy

A shallow embedding of the parts of the repository that the claims are about:

* `accounts`  : `NewWalletAccount`, `NewNoWalletAccount` and the `Account()` methods
  (`accounts/wallet_account.go`, `accounts/no_wallet_account.go`);
* `types`     : `Header.MarshalJSON` / `Header.UnmarshalJSON`
  (`core/types/gen_header_json.go`);
* `whisper`   : the relay of encrypted envelopes that the tests in `kusd/whisper_test.go`
  drive over RPC. The package itself is not among the sources, it is modelled from the
  specification.
-/

set_option maxRecDepth 8000

namespace common

/-- Go fixed-size byte array `[n]byte`. -/
abbrev FixedBytes (n : Nat) : Type := { l : List (Fin 256) // l.length = n }

/-- The zero value of `[n]byte`: `n` zero bytes. -/
def FixedBytes.zero (n : Nat) : FixedBytes n := ⟨List.replicate n 0, by simp⟩

/-- The type `common.Address`, 20 bytes. -/
abbrev Address : Type := FixedBytes 20

/-- The type `common.Hash`, 32 bytes. -/
abbrev Hash : Type := FixedBytes 32

end common

namespace accounts

/-- The type `accounts.URL`: its declaration is not among the sources, the two string
fields are those of the upstream package. -/
structure URL where
  Scheme : String
  Path : String
deriving DecidableEq, Repr

/-- The type `accounts.Account`. Its declaration is not among the sources; the tests
build `Account{Address: address}` and compare accounts with `==`, so it is a comparable
struct with an `Address` field. -/
structure Account where
  Address : common.Address
  URL : URL
deriving DecidableEq

/-- The zero value `Account{}`. -/
def Account.empty : Account :=
  { Address := common.FixedBytes.zero 20, URL := { Scheme := "", Path := "" } }

/-- The `Wallet` interface, reduced to the one method `NewWalletAccount` calls.
`Contains account = none` stands for a call that does not return (a mock wallet on which
no `Contains` expectation was set panics when the method is called). -/
structure Wallet where
  Contains : Account → Option Bool

/-- The error type `ErrInvalidAccountAddress`: a struct with one field, the account
(the test writes the literal `ErrInvalidAccountAddress{account}`). -/
structure ErrInvalidAccountAddress where
  account : Account
deriving DecidableEq

/-- Modelled from the spec: the constructor `NewErrInvalidAccountAddress` is not among the
sources. The test `TestNewWalletAccountFailsIfAddressDoesntExistInWallet` requires its
result to equal `ErrInvalidAccountAddress{account}`. -/
def NewErrInvalidAccountAddress (account : Account) : ErrInvalidAccountAddress :=
  { account := account }

/-- A non-nil value of the interface `WalletAccount`: one of its two implementations,
`*walletAccount` (wallet and default account) or `*noWalletAccount` (wallet only). -/
inductive WalletAccount where
  | walletAccount (Wallet : Wallet) (account : Account)
  | noWalletAccount (Wallet : Wallet)

/-- The function `NewNoWalletAccount` of `no_wallet_account.go`. -/
def NewNoWalletAccount (wallet : Wallet) : WalletAccount :=
  WalletAccount.noWalletAccount wallet

/-- The method `Account()` of `*walletAccount` and of `*noWalletAccount`. -/
def WalletAccount.Account : WalletAccount → Account
  | .walletAccount _ account => account
  | .noWalletAccount _ => Account.empty

/-- The function `NewWalletAccount` of `wallet_account.go`. The Go result pair
`(WalletAccount, error)` is a pair of options (`none` is `nil`); the outer `none` is a
call that does not return because `wallet.Contains` did not. -/
def NewWalletAccount (wallet : Wallet) (account : Account) :
    Option (Option WalletAccount × Option ErrInvalidAccountAddress) :=
  let emptyAccount : Account := Account.empty
  if account = emptyAccount then
    some (some (NewNoWalletAccount wallet), none)
  else
    match wallet.Contains account with
    | none => none
    | some contains =>
      if !contains then
        some (none, some (NewErrInvalidAccountAddress account))
      else
        some (some (WalletAccount.walletAccount wallet account), none)

/-- The account of the tests: `Account{Address: common.Address{1}}`. -/
def testAccount : Account :=
  { Address := ⟨1 :: List.replicate 19 0, by simp⟩, URL := { Scheme := "", Path := "" } }

/-- A mock wallet with one expectation: `Contains` returns `answer`. -/
def mockWallet (answer : Bool) : Wallet := { Contains := fun _ => some answer }

/-- A mock wallet with no expectation at all: every call of `Contains` panics. -/
def bareMockWallet : Wallet := { Contains := fun _ => none }

end accounts

namespace types

/-- The type `types.Bloom`, 256 bytes. -/
abbrev Bloom : Type := common.FixedBytes 256

/-- A Go byte slice (`[]byte`, `hexutil.Bytes`): `none` is the nil slice, `some []` an
empty slice that is not nil. -/
abbrev Bytes : Type := Option (List (Fin 256))

/-- A Go `*big.Int` (or `*hexutil.Big`, the same pointer under another type): `none` is
the nil pointer. -/
abbrev BigPtr : Type := Option Int

/-- The fields of `types.Header` that the generated codec reads and writes. The
declaration of `Header` is not among the sources; the fields and their types are those
`MarshalJSON` copies out of `h` and `UnmarshalJSON` assigns to `h`. -/
structure Header where
  ParentHash : common.Hash
  Coinbase : common.Address
  Root : common.Hash
  TxHash : common.Hash
  ReceiptHash : common.Hash
  Bloom : Bloom
  Difficulty : BigPtr
  Number : BigPtr
  GasLimit : BigPtr
  GasUsed : BigPtr
  Time : BigPtr
  Extra : Bytes
deriving DecidableEq

/-- The local type `Header` declared inside `MarshalJSON`: the wire struct that is handed
to `json.Marshal`, with the extra field `Hash`. -/
structure encHeader where
  ParentHash : common.Hash
  Coinbase : common.Address
  Root : common.Hash
  TxHash : common.Hash
  ReceiptHash : common.Hash
  Bloom : Bloom
  Difficulty : BigPtr
  Number : BigPtr
  GasLimit : BigPtr
  GasUsed : BigPtr
  Time : BigPtr
  Extra : Bytes
  Hash : common.Hash
deriving DecidableEq

/-- The local type `Header` declared inside `UnmarshalJSON`: the struct `json.Unmarshal`
fills. Every field but `Extra` is a pointer, `Extra` is a slice; `none` is nil. -/
structure decHeader where
  ParentHash : Option common.Hash
  Coinbase : Option common.Address
  Root : Option common.Hash
  TxHash : Option common.Hash
  ReceiptHash : Option common.Hash
  Bloom : Option Bloom
  Difficulty : BigPtr
  Number : BigPtr
  GasLimit : BigPtr
  GasUsed : BigPtr
  Time : BigPtr
  Extra : Bytes
deriving DecidableEq

/-- The code that `gen_header_json.go` calls and that is not among the sources:
`json.Marshal(&enc)` and `json.Unmarshal(input, &dec)` of `encoding/json` (which go through
the text codecs of `common` and `hexutil`), and the method `h.Hash()`. They are parameters
of the embedding. `W` is the type of the encoded text (`[]byte` in Go); a Go `error` is
represented by its message. -/
structure JSON (W : Type) where
  Marshal : encHeader → Except String W
  Unmarshal : W → Except String decHeader
  Hash : Header → common.Hash

/-- The method `Header.MarshalJSON`. -/
def Header.MarshalJSON {W : Type} (J : JSON W) (h : Header) : Except String W :=
  let enc : encHeader :=
    { ParentHash := h.ParentHash
      Coinbase := h.Coinbase
      Root := h.Root
      TxHash := h.TxHash
      ReceiptHash := h.ReceiptHash
      Bloom := h.Bloom
      Difficulty := h.Difficulty
      Number := h.Number
      GasLimit := h.GasLimit
      GasUsed := h.GasUsed
      Time := h.Time
      Extra := h.Extra
      Hash := J.Hash h }
  J.Marshal enc

/-- The method `Header.UnmarshalJSON`. The receiver `h` is passed in and its value after
the call is returned with the error (`none` is a nil error). -/
def Header.UnmarshalJSON {W : Type} (J : JSON W) (h : Header) (input : W) :
    Header × Option String :=
  match J.Unmarshal input with
  | .error err => (h, some err)
  | .ok dec =>
  match dec.ParentHash with
  | none => (h, some "missing required field 'parentHash' for Header")
  | some v =>
  let h := { h with ParentHash := v }
  match dec.Coinbase with
  | none => (h, some "missing required field 'miner' for Header")
  | some v =>
  let h := { h with Coinbase := v }
  match dec.Root with
  | none => (h, some "missing required field 'stateRoot' for Header")
  | some v =>
  let h := { h with Root := v }
  match dec.TxHash with
  | none => (h, some "missing required field 'transactionsRoot' for Header")
  | some v =>
  let h := { h with TxHash := v }
  match dec.ReceiptHash with
  | none => (h, some "missing required field 'receiptsRoot' for Header")
  | some v =>
  let h := { h with ReceiptHash := v }
  match dec.Bloom with
  | none => (h, some "missing required field 'logsBloom' for Header")
  | some v =>
  let h := { h with Bloom := v }
  match dec.Difficulty with
  | none => (h, some "missing required field 'difficulty' for Header")
  | some v =>
  let h := { h with Difficulty := some v }
  match dec.Number with
  | none => (h, some "missing required field 'number' for Header")
  | some v =>
  let h := { h with Number := some v }
  match dec.GasLimit with
  | none => (h, some "missing required field 'gasLimit' for Header")
  | some v =>
  let h := { h with GasLimit := some v }
  match dec.GasUsed with
  | none => (h, some "missing required field 'gasUsed' for Header")
  | some v =>
  let h := { h with GasUsed := some v }
  match dec.Time with
  | none => (h, some "missing required field 'timestamp' for Header")
  | some v =>
  let h := { h with Time := some v }
  match dec.Extra with
  | none => (h, some "missing required field 'extraData' for Header")
  | some v =>
  let h := { h with Extra := some v }
  (h, none)

/-- The twelve required fields in the order of the claim, each with the fact whether
`json.Unmarshal` left it non-nil in `dec` (the field was present in the input). -/
def decHeader.requiredFields (dec : decHeader) : List (String × Bool) :=
  [ ("parentHash", dec.ParentHash.isSome),
    ("miner", dec.Coinbase.isSome),
    ("stateRoot", dec.Root.isSome),
    ("transactionsRoot", dec.TxHash.isSome),
    ("receiptsRoot", dec.ReceiptHash.isSome),
    ("logsBloom", dec.Bloom.isSome),
    ("difficulty", dec.Difficulty.isSome),
    ("number", dec.Number.isSome),
    ("gasLimit", dec.GasLimit.isSome),
    ("gasUsed", dec.GasUsed.isSome),
    ("timestamp", dec.Time.isSome),
    ("extraData", dec.Extra.isSome) ]

/-- The name of the first required field that is absent, in the order above; `none` when
all twelve are present. -/
def decHeader.firstAbsent (dec : decHeader) : Option String :=
  (dec.requiredFields.find? (fun f => !f.2)).map (fun f => f.1)

/-- The error the claim names for an absent field. -/
def missingRequiredField (name : String) : String :=
  "missing required field '" ++ name ++ "' for Header"

/-- A non-nil `*big.Int` that holds a non-negative integer. -/
def BigPtr.isNonNegative : BigPtr → Bool
  | some v => decide (0 ≤ v)
  | none => false

/-- What `json.Unmarshal` has to produce from the encoding of `enc` for the encoding to be
read back: every pointer set to the value that was encoded, `Extra` set to the encoded
bytes as a non-nil slice (a nil `Extra` is encoded like the empty one). -/
def encHeader.decoded (enc : encHeader) : decHeader :=
  { ParentHash := some enc.ParentHash
    Coinbase := some enc.Coinbase
    Root := some enc.Root
    TxHash := some enc.TxHash
    ReceiptHash := some enc.ReceiptHash
    Bloom := some enc.Bloom
    Difficulty := enc.Difficulty
    Number := enc.Number
    GasLimit := enc.GasLimit
    GasUsed := enc.GasUsed
    Time := enc.Time
    Extra := some (enc.Extra.getD []) }

/-- A non-nil `*big.Int` that holds a non-negative integer of at most 256 bits, the
integers that `hexutil.Big` reads back. -/
def BigPtr.fits256Bits : BigPtr → Bool
  | some v => decide (0 ≤ v) && decide (v < 2 ^ 256)
  | none => false

/-- A JSON layer reads back what it wrote: a wire struct whose five integers are non-nil,
non-negative and of at most 256 bits is marshalled without error, and unmarshalling the
output gives back its values. -/
def JSON.RoundTrips {W : Type} (J : JSON W) : Prop :=
  ∀ enc : encHeader,
    enc.Difficulty.fits256Bits = true → enc.Number.fits256Bits = true →
    enc.GasLimit.fits256Bits = true → enc.GasUsed.fits256Bits = true →
    enc.Time.fits256Bits = true →
    ∃ out : W, J.Marshal enc = .ok out ∧ J.Unmarshal out = .ok enc.decoded

/-- Marshalling `h` and unmarshalling the output into `receiver`: the receiver after the
call with the error of `UnmarshalJSON`, or the error of `MarshalJSON`. -/
def Header.roundTrip {W : Type} (J : JSON W) (h receiver : Header) :
    Except String (Header × Option String) :=
  match h.MarshalJSON J with
  | .error err => .error err
  | .ok out => .ok (receiver.UnmarshalJSON J out)

/-- Modelled from the spec: `encoding/json` and the text codecs of `common` and `hexutil`
are not among the sources (the spec leaves the generated marshaling and what it calls
out). A value of a JSON object in the header schema, represented by what its text
denotes. -/
inductive JSONValue where
  /-- The literal `null`. -/
  | null
  /-- A string `"0x…"` of hex digit pairs: the bytes it denotes. -/
  | data (bytes : List (Fin 256))
  /-- A string holding a hex integer (`"0x1f"`, `"-0x2"`): the integer it denotes. -/
  | quantity (n : Int)
  /-- Any other value (number, boolean, array, object, a string that is not hex). -/
  | other
deriving DecidableEq

/-- Modelled from the spec: a JSON object of the absent JSON layer, its keys with their
values. -/
abbrev JSONObject : Type := List (String × JSONValue)

/-- Modelled from the spec: the absent decoding of a pointer to a fixed-size byte array
(`*common.Hash`, `*common.Address`, `*Bloom`): an absent key or `null` leaves the pointer
nil, hex data of the right length sets it, anything else is an error. -/
def decodeFixed (n : Nat) : Option JSONValue → Except String (Option (common.FixedBytes n))
  | none => .ok none
  | some .null => .ok none
  | some (.data b) =>
    if hb : b.length = n then .ok (some ⟨b, hb⟩) else .error "hex string has wrong length"
  | some _ => .error "cannot unmarshal non-string"

/-- Modelled from the spec: the absent decoding of a `*hexutil.Big`: an absent key or
`null` leaves the pointer nil; a hex integer sets it when it is non-negative (a text
`-0x…` has no `0x` prefix) and has at most 64 hex digits, that is when it is below 2^256;
anything else is an error. -/
def decodeBig : Option JSONValue → Except String BigPtr
  | none => .ok none
  | some .null => .ok none
  | some (.quantity v) =>
    if v < 0 then .error "hex string without 0x prefix"
    else if v < 2 ^ 256 then .ok (some v)
    else .error "hex number > 256 bits"
  | some _ => .error "cannot unmarshal non-string"

/-- Modelled from the spec: the absent decoding of a `hexutil.Bytes`: an absent key leaves
the slice nil, hex data sets it to a non-nil slice, anything else is an error. -/
def decodeBytes : Option JSONValue → Except String Bytes
  | none => .ok none
  | some (.data b) => .ok (some b)
  | some _ => .error "cannot unmarshal non-string"

/-- Modelled from the spec: the absent encoding of a `*hexutil.Big`: `null` for the nil
pointer, the hex text of the integer otherwise, whatever its size. -/
def encodeBig : BigPtr → JSONValue
  | none => .null
  | some v => .quantity v

/-- Modelled from the spec: the absent JSON layer (`encoding/json` with the codecs above)
at the level of JSON objects: the input is `none` for a text that is not a JSON object and
`some obj` for an object; `Marshal` writes the thirteen keys of the wire struct of
`MarshalJSON`, `Unmarshal` reads the twelve keys of the wire struct of `UnmarshalJSON`.
The header hash is a placeholder. -/
def objectJSON : JSON (Option JSONObject) where
  Marshal := fun enc => .ok (some
    [ ("parentHash", .data enc.ParentHash.val),
      ("miner", .data enc.Coinbase.val),
      ("stateRoot", .data enc.Root.val),
      ("transactionsRoot", .data enc.TxHash.val),
      ("receiptsRoot", .data enc.ReceiptHash.val),
      ("logsBloom", .data enc.Bloom.val),
      ("difficulty", encodeBig enc.Difficulty),
      ("number", encodeBig enc.Number),
      ("gasLimit", encodeBig enc.GasLimit),
      ("gasUsed", encodeBig enc.GasUsed),
      ("timestamp", encodeBig enc.Time),
      ("extraData", .data (enc.Extra.getD [])),
      ("hash", .data enc.Hash.val) ])
  Unmarshal := fun input =>
    match input with
    | none => .error "invalid character looking for beginning of value"
    | some obj => do
      let parentHash ← decodeFixed 32 (obj.lookup "parentHash")
      let miner ← decodeFixed 20 (obj.lookup "miner")
      let stateRoot ← decodeFixed 32 (obj.lookup "stateRoot")
      let transactionsRoot ← decodeFixed 32 (obj.lookup "transactionsRoot")
      let receiptsRoot ← decodeFixed 32 (obj.lookup "receiptsRoot")
      let logsBloom ← decodeFixed 256 (obj.lookup "logsBloom")
      let difficulty ← decodeBig (obj.lookup "difficulty")
      let number ← decodeBig (obj.lookup "number")
      let gasLimit ← decodeBig (obj.lookup "gasLimit")
      let gasUsed ← decodeBig (obj.lookup "gasUsed")
      let timestamp ← decodeBig (obj.lookup "timestamp")
      let extraData ← decodeBytes (obj.lookup "extraData")
      pure
        { ParentHash := parentHash
          Coinbase := miner
          Root := stateRoot
          TxHash := transactionsRoot
          ReceiptHash := receiptsRoot
          Bloom := logsBloom
          Difficulty := difficulty
          Number := number
          GasLimit := gasLimit
          GasUsed := gasUsed
          Time := timestamp
          Extra := extraData }
  Hash := fun _ => common.FixedBytes.zero 32

/-- A header to run the codec on: zero hashes, small integers, nil `Extra`. -/
def sampleHeader : Header :=
  { ParentHash := common.FixedBytes.zero 32
    Coinbase := common.FixedBytes.zero 20
    Root := common.FixedBytes.zero 32
    TxHash := common.FixedBytes.zero 32
    ReceiptHash := common.FixedBytes.zero 32
    Bloom := common.FixedBytes.zero 256
    Difficulty := some 131072
    Number := some 1
    GasLimit := some 4712388
    GasUsed := some 0
    Time := some 1500000000
    Extra := none }

/-- A header inside the domain of the claim whose `Difficulty` needs 257 bits. -/
def hugeHeader : Header :=
  { sampleHeader with Difficulty := some (2 ^ 256) }

/-- Another header, the receiver before a call of `UnmarshalJSON`. -/
def staleHeader : Header :=
  { sampleHeader with Number := some 7, Difficulty := none, Extra := some [1, 2] }

/-- An input in which `number` is absent and `gasUsed` is `null`. -/
def inputWithoutNumber : Option JSONObject :=
  some
    [ ("parentHash", .data (List.replicate 32 0)),
      ("miner", .data (List.replicate 20 0)),
      ("stateRoot", .data (List.replicate 32 0)),
      ("transactionsRoot", .data (List.replicate 32 0)),
      ("receiptsRoot", .data (List.replicate 32 0)),
      ("logsBloom", .data (List.replicate 256 0)),
      ("difficulty", .quantity 131072),
      ("gasLimit", .quantity 4712388),
      ("gasUsed", .null),
      ("timestamp", .quantity 1500000000),
      ("extraData", .data []) ]

/-- What `json.Unmarshal` makes of `inputWithoutNumber`: `Number` and `GasUsed` are nil. -/
def decWithoutNumber : decHeader :=
  { ParentHash := some (common.FixedBytes.zero 32)
    Coinbase := some (common.FixedBytes.zero 20)
    Root := some (common.FixedBytes.zero 32)
    TxHash := some (common.FixedBytes.zero 32)
    ReceiptHash := some (common.FixedBytes.zero 32)
    Bloom := some (common.FixedBytes.zero 256)
    Difficulty := some 131072
    Number := none
    GasLimit := some 4712388
    GasUsed := none
    Time := some 1500000000
    Extra := some [] }

/-- The number of required fields, in the check order, that are present before the first
absent one: the first absent field is the `k`-th for `k = presentPrefix + 1`, and the
count is twelve when none is absent. -/
def decHeader.presentPrefix (dec : decHeader) : Nat :=
  (dec.requiredFields.takeWhile (fun f => f.2)).length

/-- What the claim says the receiver holds after a call that met the wire struct `dec`:
the first `n` fields, in the check order, carry the values of the input and the others
the values the receiver had before the call. -/
def Header.overwritten (h : Header) (dec : decHeader) (n : Nat) : Header :=
  { ParentHash := if 0 < n then dec.ParentHash.getD h.ParentHash else h.ParentHash
    Coinbase := if 1 < n then dec.Coinbase.getD h.Coinbase else h.Coinbase
    Root := if 2 < n then dec.Root.getD h.Root else h.Root
    TxHash := if 3 < n then dec.TxHash.getD h.TxHash else h.TxHash
    ReceiptHash := if 4 < n then dec.ReceiptHash.getD h.ReceiptHash else h.ReceiptHash
    Bloom := if 5 < n then dec.Bloom.getD h.Bloom else h.Bloom
    Difficulty := if 6 < n then dec.Difficulty else h.Difficulty
    Number := if 7 < n then dec.Number else h.Number
    GasLimit := if 8 < n then dec.GasLimit else h.GasLimit
    GasUsed := if 9 < n then dec.GasUsed else h.GasUsed
    Time := if 10 < n then dec.Time else h.Time
    Extra := if 11 < n then dec.Extra else h.Extra }

/-- An input that is not a JSON object at all. -/
def malformedInput : Option JSONObject := none

end types

namespace whisper

/-!
The whisper relay. The package is not among the sources; the definitions below follow
the specification (section numbers refer to it). Three things the specification leaves to
absent code are inputs of the model: the cipher (an encrypted payload is the symbolic pair
of key and plaintext, opened only by `tryDecrypt`), the proof-of-work digest (the nonce the
search ends with is an argument of `sealEnvelope`, the cost of an envelope is the function
`verify` of the mesh), and the transport (packets in flight are part of the network state
and are received in order by `Network.step`; the clock stands still while the mesh
relays).

Proof of work. §4.2 has the sealer ship the best nonce it found, also when the target is
missed, and §4.4, §7 and §9 define the relay policy for a local origination as a function of
the local role and the peer roles with three outcomes, none of them about proof of work; so
`Network.post` does not look at the cost. §2 has inbound envelopes validated against a
minimum-acceptance threshold; `Network.step` does that with the cost function `verify` and
the threshold `minPow` of the mesh, and drops an envelope below the threshold.
-/

/-- Modelled from the spec: §3 PeerRole, the role of the local node and of each peer. -/
inductive PeerRole where
  | Full
  | Light
deriving DecidableEq, Repr

/-- Modelled from the spec: §3 Topic, a 4-byte identifier. -/
abbrev Topic : Type := common.FixedBytes 4

/-- Modelled from the spec: §3, a plaintext payload, a byte string. -/
abbrev Payload : Type := List (Fin 256)

/-- Modelled from the spec: §3 SymmetricKey, the key material. -/
structure SymmetricKey where
  material : List (Fin 256)
deriving DecidableEq

/-- Modelled from the spec: §3 KeyPair, the private half, which stays in the registry. -/
structure PrivateKey where
  secret : Nat
deriving DecidableEq

/-- Modelled from the spec: §3 KeyPair, the shareable public half; symbolically, the
public key that belongs to the private key with the same number. -/
structure PublicKey where
  ofSecret : Nat
deriving DecidableEq

/-- Modelled from the spec: §3 KeyPair, the public key of a private key. -/
def PrivateKey.publicKey (sk : PrivateKey) : PublicKey := { ofSecret := sk.secret }

/-- Modelled from the spec: §4.2, the key `seal` encrypts under: a symmetric key or the
public key of the recipient. -/
inductive EncryptionKey where
  | symmetric (key : SymmetricKey)
  | publicKey (key : PublicKey)
deriving DecidableEq

/-- Modelled from the spec: §3 Filter, the key a filter decrypts with: a symmetric key or
a private key. -/
inductive DecryptionKey where
  | symmetric (key : SymmetricKey)
  | privateKey (key : PrivateKey)
deriving DecidableEq

/-- Modelled from the spec: §4.2, the encrypted payload of an envelope. The cipher is
absent; the ciphertext is the symbolic pair of the key it was made under and the
plaintext, and the relay reads it through `tryDecrypt` only. -/
structure Ciphertext where
  key : EncryptionKey
  plaintext : Payload
deriving DecidableEq

/-- Modelled from the spec: §3 Envelope: encrypted payload, topic, time-to-live, creation
timestamp and proof-of-work nonce. Its identity, a digest over these fields, is taken to
be free of collisions: two envelopes have the same identity when they are equal. -/
structure Envelope where
  data : Ciphertext
  topic : Topic
  ttl : Nat
  timestamp : Nat
  nonce : Nat
deriving DecidableEq

/-- Modelled from the spec: §3 MatchedMessage: decrypted payload, source envelope and
arrival time. -/
structure MatchedMessage where
  payload : Payload
  envelope : Envelope
  arrival : Nat
deriving DecidableEq

/-- Modelled from the spec: §3 Filter: a decryption key, the topics to match, the
peer-to-peer flag, an identifier, and the queue of matched messages not yet polled. -/
structure Filter where
  id : Nat
  key : DecryptionKey
  topics : List Topic
  allowP2P : Bool
  queue : List MatchedMessage
deriving DecidableEq

/-- Modelled from the spec: one node: its role, its connected peers, the filter matching
engine (§4.3) and the message store (§4.5: seen envelopes with their expiry time). -/
structure Node where
  role : PeerRole
  peers : List Nat
  filters : List Filter
  nextFilterID : Nat
  store : List (Envelope × Nat)

/-- Modelled from the spec: §6 transport, an envelope sent by `src` to its peer `dst` and
not yet received. -/
structure Packet where
  src : Nat
  dst : Nat
  envelope : Envelope
deriving DecidableEq

/-- Modelled from the spec: the peer mesh: the nodes by identifier, the clock, the default
time-to-live that `seal` assigns, the packets in flight, and the proof of work: `verify`
is §4.2 `verify`, the cost of an envelope recomputed from its nonce and fields (the digest
is absent, the function is an input of the model), and `minPow` is the
minimum-acceptance threshold of §2 for inbound envelopes. -/
structure Network where
  nodes : Nat → Node
  now : Nat
  defaultTTL : Nat
  inflight : List Packet
  verify : Envelope → Rat
  minPow : Rat

/-- Modelled from the spec: §4.4, the outcome of the relay policy for a local origination. -/
inductive RelayDecision where
  | NoPeers
  | LightWithoutFull
  | Accepted
deriving DecidableEq, Repr

/-- Modelled from the spec: §7, the two relay-policy rejections. -/
inductive PostError where
  | ErrNoPeers
  | ErrNoFullPeers
deriving DecidableEq, Repr

/-- Modelled from the spec: §6 names the two contractual conditions; the message texts of
`whisper.ErrNoPeers` and `whisper.ErrNoFullPeers` are those names. -/
def PostError.Error : PostError → String
  | .ErrNoPeers => "no peers connected"
  | .ErrNoFullPeers => "no full peers connected while node is light"

/-- Modelled from the spec: §4.3, the error of `register`. -/
inductive FilterError where
  | InvalidFilter
deriving DecidableEq, Repr

/-- Modelled from the spec: §4.4 and §9, the relay policy as a pure decision function of
the local role and the roles of the connected peers.
1. zero connected peers: NoPeers;
2. local role Light and zero connected peers of role Full: LightWithoutFull;
3. otherwise: Accepted. -/
def relayPolicy (localRole : PeerRole) (peerRoles : List PeerRole) : RelayDecision :=
  if peerRoles.length = 0 then
    RelayDecision.NoPeers
  else if localRole = PeerRole.Light ∧ (peerRoles.filter (fun r => r = PeerRole.Full)).length = 0 then
    RelayDecision.LightWithoutFull
  else
    RelayDecision.Accepted

/-- Modelled from the spec: §4.2 `seal`: encrypts the payload under the key, assigns the
topic, a fresh timestamp and the default time-to-live, and attaches the nonce that the
proof-of-work search for `powTarget` within `powTimeBudget` ends with. The search is best
effort and does not fail, so it returns an envelope (named `sealEnvelope`: `seal` is a reserved word). -/
def sealEnvelope (payload : Payload) (topic : Topic) (encryptionKey : EncryptionKey)
    (_powTarget : Rat) (_powTimeBudget : Nat) (now ttl nonce : Nat) : Envelope :=
  { data := { key := encryptionKey, plaintext := payload }
    topic := topic
    ttl := ttl
    timestamp := now
    nonce := nonce }

/-- Modelled from the spec: §4.2 `tryDecrypt`: the payload when the key opens the
envelope, and the sentinel NoMatch (`none`) on a key mismatch. -/
def tryDecrypt (env : Envelope) (key : DecryptionKey) : Option Payload :=
  match env.data.key, key with
  | .symmetric k, .symmetric k' => if k = k' then some env.data.plaintext else none
  | .publicKey pk, .privateKey sk => if pk = sk.publicKey then some env.data.plaintext else none
  | _, _ => none

/-- Modelled from the spec: §4.3 `onEnvelope` for one filter: when the topic of the
envelope is among the topics of the filter and `tryDecrypt` succeeds, a MatchedMessage is
put at the end of the queue. -/
def Filter.onEnvelope (f : Filter) (env : Envelope) (now : Nat) : Filter :=
  if env.topic ∈ f.topics then
    match tryDecrypt env f.key with
    | some payload =>
      { f with queue := f.queue ++ [{ payload := payload, envelope := env, arrival := now }] }
    | none => f
  else f

/-- Modelled from the spec: §4.3 `onEnvelope`: every registered filter is tried,
independently of the others. -/
def Node.onEnvelope (n : Node) (env : Envelope) (now : Nat) : Node :=
  { n with filters := n.filters.map (fun f => f.onEnvelope env now) }

/-- Modelled from the spec: §4.5 `seen`: the envelope is in the store and its entry has
not expired. -/
def Node.seen (n : Node) (env : Envelope) (now : Nat) : Bool :=
  n.store.any (fun e => decide (e.1 = env) && decide (now < e.2))

/-- Modelled from the spec: §4.5 `markSeen`: insertion with expiry `ttl` after it. -/
def Node.markSeen (n : Node) (env : Envelope) (ttl now : Nat) : Node :=
  { n with store := (env, now + ttl) :: n.store }

/-- Modelled from the spec: §4.3 `register`: a filter needs at least one topic and a key
reference that resolves (`none` is a reference that does not); it gets a fresh identifier
and an empty queue. -/
def Node.register (n : Node) (key : Option DecryptionKey) (topics : List Topic)
    (allowP2P : Bool) : Except FilterError (Nat × Node) :=
  match key with
  | none => .error FilterError.InvalidFilter
  | some k =>
    if topics.length = 0 then .error FilterError.InvalidFilter
    else
      .ok (n.nextFilterID,
        { n with
          filters := n.filters ++
            [{ id := n.nextFilterID, key := k, topics := topics, allowP2P := allowP2P,
               queue := [] }]
          nextFilterID := n.nextFilterID + 1 })

/-- Modelled from the spec: §4.3 `poll`: returns the queued messages of the filter in
arrival order and empties the queue; `none` for an unknown filter identifier. -/
def Node.poll (n : Node) (filterID : Nat) : Option (List MatchedMessage × Node) :=
  match n.filters.find? (fun f => decide (f.id = filterID)) with
  | none => none
  | some f =>
    some (f.queue,
      { n with
        filters := n.filters.map
          (fun g => if g.id = filterID then { g with queue := [] } else g) })

/-- Modelled from the spec: §4.4 fan-out from node `origin`: one packet to every connected
peer, except the peer the envelope arrived from and the peers whose store has the envelope
already. -/
def Network.fanOut (net : Network) (origin : Nat) (arrivedFrom : Option Nat)
    (env : Envelope) : List Packet :=
  ((net.nodes origin).peers.filter
      (fun p => decide (some p ≠ arrivedFrom) && !(net.nodes p).seen env net.now)).map
    (fun p => { src := origin, dst := p, envelope := env })

/-- Modelled from the spec: §4.4 step 3 at the node `node`: unless the store has seen it, the
envelope is inserted into the message store, matched against the local filters and fanned
out. -/
def Network.accept (net : Network) (node : Nat) (arrivedFrom : Option Nat)
    (env : Envelope) : Network :=
  if (net.nodes node).seen env net.now then net
  else
    let n := ((net.nodes node).markSeen env env.ttl net.now).onEnvelope env net.now
    let net1 : Network := { net with nodes := Function.update net.nodes node n }
    { net1 with inflight := net1.inflight ++ net1.fanOut node arrivedFrom env }

/-- Modelled from the spec: §6 `post`, the arguments of a local origination. -/
structure PostRequest where
  key : EncryptionKey
  topic : Topic
  payload : Payload
  powTarget : Rat
  powTime : Nat

/-- Modelled from the spec: §4.4, local origination at node `sender`. The relay policy is
decided on the local role and the roles of the connected peers; a rejection returns the
error and nothing else happens, otherwise the envelope is sealed and accepted with a
fan-out to all peers. -/
def Network.post (net : Network) (sender : Nat) (req : PostRequest) (nonce : Nat) :
    Except PostError Network :=
  let node := net.nodes sender
  match relayPolicy node.role (node.peers.map (fun p => (net.nodes p).role)) with
  | .NoPeers => .error PostError.ErrNoPeers
  | .LightWithoutFull => .error PostError.ErrNoFullPeers
  | .Accepted =>
    .ok (net.accept sender none
      (sealEnvelope req.payload req.topic req.key req.powTarget req.powTime net.now net.defaultTTL
        nonce))

/-- Modelled from the spec: §4.4 inbound handling: the first packet in flight is received
by its destination. The proof of work of the envelope is validated against the
minimum-acceptance threshold (§2) and an underpowered envelope is dropped; otherwise the
destination follows step 3 only, without the peer-role checks. -/
def Network.step (net : Network) : Network :=
  match net.inflight with
  | [] => net
  | p :: rest =>
    if net.verify p.envelope < net.minPow then { net with inflight := rest }
    else ({ net with inflight := rest }).accept p.dst (some p.src) p.envelope

/-- Modelled from the spec: §5, the inbound tasks run until no packet is in flight, for at
most `fuel` receptions. -/
def Network.relay : Nat → Network → Network
  | 0, net => net
  | fuel + 1, net =>
    match net.inflight with
    | [] => net
    | _ :: _ => Network.relay fuel net.step

/-- The type `Error` of `kusd/whisper_test.go`: the error object of an RPC response. -/
structure Error where
  Code : Int
  Message : String
deriving DecidableEq

/-- The method `Error.Error()` of the test file: `fmt.Sprintf("%d %s", e.Code, e.Message)`. -/
def Error.Error (e : Error) : String :=
  toString e.Code ++ " " ++ e.Message

/-- Modelled from the spec: §6, an error of `post` is surfaced at the RPC boundary as a
structured code and message; the code is the −32000 that the tests expect in front of the
message of the whisper error. -/
def rpcError (err : PostError) : Error :=
  { Code := -32000, Message := err.Error }

/-- The helper `startNode(name, isLight, t)` of the test: a started node with no peer, no
filter and an empty message store; `SHHLight` sets the role. -/
def startNode (isLight : Bool) : Node :=
  { role := if isLight then PeerRole.Light else PeerRole.Full
    peers := []
    filters := []
    nextFilterID := 0
    store := [] }

/-- A mesh in which no node has a peer yet; every identifier stands for a full node that
nothing connects to until `Network.start` and `addPeer` say otherwise. -/
def Network.init (now defaultTTL : Nat) (verify : Envelope → Rat) (minPow : Rat) :
    Network :=
  { nodes := fun _ => startNode false
    now := now
    defaultTTL := defaultTTL
    inflight := []
    verify := verify
    minPow := minPow }

/-- Starting a node under an identifier. -/
def Network.start (net : Network) (id : Nat) (isLight : Bool) : Network :=
  { net with nodes := Function.update net.nodes id (startNode isLight) }

/-- The helper `addPeer(src, dst)` of the test: `dst` adds `src` as a static peer; once
the connection stands each of the two is a connected peer of the other. -/
def addPeer (net : Network) (src dst : Nat) : Network :=
  let d := net.nodes dst
  let net1 : Network :=
    { net with nodes := Function.update net.nodes dst { d with peers := d.peers ++ [src] } }
  let s := net1.nodes src
  { net1 with nodes := Function.update net1.nodes src { s with peers := s.peers ++ [dst] } }

/-- The helper `createChatMessageFilter` of the test: `shh_newMessageFilter` with a
symmetric key, one topic and `allowP2P` set, on the node `node`. -/
def createChatMessageFilter (net : Network) (node : Nat) (symKey : SymmetricKey)
    (topic : Topic) : Except FilterError (Nat × Network) :=
  match (net.nodes node).register (some (DecryptionKey.symmetric symKey)) [topic] true with
  | .error e => .error e
  | .ok (id, n) => .ok (id, { net with nodes := Function.update net.nodes node n })

/-- The helper `postMessage` of the test: `shh_post` with a symmetric key, `powTarget` 0.2
and `powTime` 1; it returns the error of the response, nil on success. -/
def postMessage (net : Network) (node : Nat) (symKey : SymmetricKey) (topic : Topic)
    (payload : Payload) (nonce : Nat) : Option Error × Network :=
  match net.post node
      { key := EncryptionKey.symmetric symKey, topic := topic, payload := payload,
        powTarget := 2 / 10, powTime := 1 } nonce with
  | .error e => (some (rpcError e), net)
  | .ok net1 => (none, net1)

/-- The helper `getMessagesByMessageFilterID` of the test: `shh_getFilterMessages`. -/
def getMessagesByMessageFilterID (net : Network) (node : Nat) (filterID : Nat) :
    Option (List MatchedMessage × Network) :=
  match (net.nodes node).poll filterID with
  | none => none
  | some (msgs, n) => some (msgs, { net with nodes := Function.update net.nodes node n })

/-- What a run of one of the tests observes: the messages the sender's filter holds
before the post, the error of the post, the messages the receiver's filter holds after
the relay, and the number of packets still in flight then. -/
structure TestRun where
  senderBefore : List MatchedMessage
  postError : Option Error
  received : List MatchedMessage
  inflight : Nat
deriving DecidableEq

/-- The body that the five tests of `kusd/whisper_test.go` share, from "make a key" on:
sender and receiver each register a filter for the topic under their key, the sender's
filter is polled, the sender posts the payload under its key, the mesh relays (the test
sleeps), and the receiver's filter is polled. `none` is a failure of a step that makes
the test stop (`t.Fatal`) for another reason than the one it is about. -/
def sendMessage (net : Network) (sender receiver : Nat)
    (senderKey receiverKey : SymmetricKey) (topic : Topic) (payload : Payload)
    (nonce fuel : Nat) : Option TestRun :=
  match createChatMessageFilter net sender senderKey topic with
  | .error _ => none
  | .ok (messageFilterID, net1) =>
  match getMessagesByMessageFilterID net1 sender messageFilterID with
  | none => none
  | some (before, net2) =>
  match createChatMessageFilter net2 receiver receiverKey topic with
  | .error _ => none
  | .ok (receiverMessageFilterID, net3) =>
  match postMessage net3 sender senderKey topic payload nonce with
  | (postError, net4) =>
  let net5 := net4.relay fuel
  match getMessagesByMessageFilterID net5 receiver receiverMessageFilterID with
  | none => none
  | some (received, _) =>
    some
      { senderBefore := before, postError := postError, received := received,
        inflight := net5.inflight.length }

/-- The mesh of the first four tests: `fullnode` (identifier 0), `sender` (1) and
`receiver` (2) are started with their light flags, and the full node is added as a peer
to the sender and to the receiver. -/
def threeNodes (fullnodeLight senderLight receiverLight : Bool) (now defaultTTL : Nat)
    (verify : Envelope → Rat) (minPow : Rat) : Network :=
  let net := (((Network.init now defaultTTL verify minPow).start 0 fullnodeLight).start 1
    senderLight).start 2 receiverLight
  addPeer (addPeer net 0 1) 0 2

/-- The mesh of `TestSendMessageNoPeers_Fail`: `sender` (1) and `receiver` (2) are started
and nothing is connected. -/
def twoNodes (senderLight receiverLight : Bool) (now defaultTTL : Nat)
    (verify : Envelope → Rat) (minPow : Rat) : Network :=
  ((Network.init now defaultTTL verify minPow).start 1 senderLight).start 2 receiverLight

/-- The topic of the tests: `BytesToTopic([]byte("topic name"))`, the bytes "topi". -/
def testTopic : Topic := ⟨[116, 111, 112, 105], by simp⟩

/-- The payload of the tests: "Hello world!". -/
def testPayload : Payload := [72, 101, 108, 108, 111, 32, 119, 111, 114, 108, 100, 33]

/-- A key for the tests' password. -/
def testKey : SymmetricKey := { material := [1, 2, 3] }

/-- A key for the tests' incorrect password. -/
def wrongKey : SymmetricKey := { material := [] }

/-- A cost function for the tests under which every envelope meets the threshold. -/
def testVerify : Envelope → Rat := fun _ => 1

/-- A minimum-acceptance threshold for the tests' nodes, in the unit of the cost function. -/
def testMinPow : Rat := 1

/-- Modelled from the spec: §4.4 step 3 for one node: the node after it has accepted the
envelope at time `now`, with the envelope in its message store and matched against its
filters (what `Network.accept` puts in place of the node). -/
def Node.accepted (n : Node) (env : Envelope) (now : Nat) : Node :=
  (n.markSeen env env.ttl now).onEnvelope env now

/-- The request of the tests' `postMessage`. -/
def testRequest : PostRequest :=
  { key := EncryptionKey.symmetric testKey, topic := testTopic, payload := testPayload,
    powTarget := 2 / 10, powTime := 1 }

end whisper

/-! ## Theorems -/

namespace accounts

/-- C1. For every wallet and every account different from `Account{}` for which
`wallet.Contains(account)` returns false, `NewWalletAccount` returns a nil `WalletAccount`
and the error `ErrInvalidAccountAddress{account}`. -/
theorem newWalletAccount_rejects_unknown (wallet : Wallet) (account : Account)
    (hne : account ≠ Account.empty) (hc : wallet.Contains account = some false) :
    NewWalletAccount wallet account = some (none, some { account := account }) := by
  simp [NewWalletAccount, hne, hc, NewErrInvalidAccountAddress]

theorem newWalletAccount_rejects_unknown_witness :
    testAccount ≠ Account.empty ∧ (mockWallet false).Contains testAccount = some false ∧
    NewWalletAccount (mockWallet false) testAccount
      = some (none, some { account := testAccount }) :=
  ⟨by decide, rfl, newWalletAccount_rejects_unknown _ _ (by decide) rfl⟩

/-- C2. For every wallet and every account different from `Account{}` for which
`wallet.Contains(account)` returns true, `NewWalletAccount` returns a nil error and a
`*walletAccount` whose `Account()` is the account passed in. -/
theorem newWalletAccount_accepts_contained (wallet : Wallet) (account : Account)
    (hne : account ≠ Account.empty) (hc : wallet.Contains account = some true) :
    NewWalletAccount wallet account
        = some (some (WalletAccount.walletAccount wallet account), none) ∧
      (WalletAccount.walletAccount wallet account).Account = account := by
  simp [NewWalletAccount, hne, hc, WalletAccount.Account]

theorem newWalletAccount_accepts_contained_witness :
    testAccount ≠ Account.empty ∧ (mockWallet true).Contains testAccount = some true ∧
    (NewWalletAccount (mockWallet true) testAccount
        = some (some (WalletAccount.walletAccount (mockWallet true) testAccount), none) ∧
      (WalletAccount.walletAccount (mockWallet true) testAccount).Account = testAccount) :=
  ⟨by decide, rfl, newWalletAccount_accepts_contained _ _ (by decide) rfl⟩

/-- C3. For every wallet, `NewWalletAccount(wallet, Account{})` returns a nil error and a
`*noWalletAccount` wrapping that wallet. `Contains` is not called: the call returns this
result also on a wallet whose `Contains` never returns, in particular on the bare mock. -/
theorem newWalletAccount_empty_account (wallet : Wallet) :
    NewWalletAccount wallet Account.empty
        = some (some (WalletAccount.noWalletAccount wallet), none) ∧
      NewWalletAccount bareMockWallet Account.empty
        = some (some (WalletAccount.noWalletAccount bareMockWallet), none) := by
  simp [NewWalletAccount, NewNoWalletAccount]

/-- C4, as stated, fails: on the empty account and a wallet whose `Contains` answers false,
`NewWalletAccount` returns without an error although the wallet does not contain the
account. -/
theorem newWalletAccount_no_error_not_contained :
    NewWalletAccount (mockWallet false) Account.empty
        = some (some (WalletAccount.noWalletAccount (mockWallet false)), none) ∧
      (mockWallet false).Contains Account.empty = some false ∧
      (mockWallet false).Contains Account.empty ≠ some true := by
  refine ⟨rfl, rfl, ?_⟩
  simp [mockWallet]

/-- C4, amended. For every wallet and every account different from `Account{}`: if
`NewWalletAccount` returns without an error, then `wallet.Contains(account)` is true. -/
theorem newWalletAccount_no_error_contains (wallet : Wallet) (account : Account)
    (r : Option WalletAccount) (hne : account ≠ Account.empty)
    (h : NewWalletAccount wallet account = some (r, none)) :
    wallet.Contains account = some true := by
  unfold NewWalletAccount at h
  simp only [hne, if_false] at h
  cases hc : wallet.Contains account with
  | none => simp [hc] at h
  | some b =>
    cases b with
    | true => rfl
    | false => simp [hc] at h

theorem newWalletAccount_no_error_contains_witness :
    testAccount ≠ Account.empty ∧
    NewWalletAccount (mockWallet true) testAccount
      = some (some (WalletAccount.walletAccount (mockWallet true) testAccount), none) ∧
    (mockWallet true).Contains testAccount = some true :=
  ⟨by decide, rfl, newWalletAccount_no_error_contains _ _ _ (by decide) rfl⟩

/-- C13. For every wallet, `NewNoWalletAccount(wallet).Account()` is the zero value
`Account{}`; and for every account on which `NewWalletAccount` succeeds (a nil error and
a value), the `Account()` of the returned value is the account that was passed in, in the
empty-account branch as in the contained-account branch. -/
theorem walletAccount_account (wallet : Wallet) :
    (NewNoWalletAccount wallet).Account = Account.empty ∧
      ∀ (account : Account) (r : WalletAccount),
        NewWalletAccount wallet account = some (some r, none) → r.Account = account := by
  refine ⟨rfl, ?_⟩
  intro account r h
  unfold NewWalletAccount at h
  by_cases he : account = Account.empty
  · simp only [he, if_true, Option.some.injEq, Prod.mk.injEq, and_true] at h
    rw [← h, he]
    rfl
  · simp only [he, if_false] at h
    cases hc : wallet.Contains account with
    | none => simp [hc] at h
    | some b =>
      cases b with
      | false => simp [hc] at h
      | true =>
        simp only [hc, Bool.not_true, Bool.false_eq_true, if_false, Option.some.injEq,
          Prod.mk.injEq, and_true] at h
        rw [← h]
        rfl

theorem walletAccount_account_witness :
    NewWalletAccount (mockWallet true) testAccount
        = some (some (WalletAccount.walletAccount (mockWallet true) testAccount), none) ∧
      (WalletAccount.walletAccount (mockWallet true) testAccount).Account = testAccount ∧
      NewWalletAccount bareMockWallet Account.empty
        = some (some (WalletAccount.noWalletAccount bareMockWallet), none) ∧
      (WalletAccount.noWalletAccount bareMockWallet).Account = Account.empty :=
  ⟨rfl, (walletAccount_account (mockWallet true)).2 testAccount _ rfl, rfl,
    (walletAccount_account bareMockWallet).2 Account.empty _ rfl⟩

end accounts

namespace types

/-- The layer `objectJSON` reads back what it wrote. -/
theorem objectJSON_roundTrips : objectJSON.RoundTrips := by
  intro enc h1 h2 h3 h4 h5
  obtain ⟨a1, a2, a3, a4, a5, a6, b1, b2, b3, b4, b5, ex, hs⟩ := enc
  cases b1 <;> simp [BigPtr.fits256Bits] at h1
  cases b2 <;> simp [BigPtr.fits256Bits] at h2
  cases b3 <;> simp [BigPtr.fits256Bits] at h3
  cases b4 <;> simp [BigPtr.fits256Bits] at h4
  cases b5 <;> simp [BigPtr.fits256Bits] at h5
  refine ⟨_, rfl, ?_⟩
  have n1 := not_lt.mpr h1.1
  have n2 := not_lt.mpr h2.1
  have n3 := not_lt.mpr h3.1
  have n4 := not_lt.mpr h4.1
  have n5 := not_lt.mpr h5.1
  simp [objectJSON, List.lookup, decodeFixed, decodeBig, decodeBytes, encodeBig,
    encHeader.decoded, a1.property, a2.property, a3.property, a4.property, a5.property,
    a6.property, h1, h2, h3, h4, h5, n1, n2, n3, n4, n5, bind, Except.bind, pure,
    Except.pure]

/-- On a JSON layer that reads back what it wrote, the round trip through `MarshalJSON` and
`UnmarshalJSON` returns a nil error and the header, a nil `Extra` having become the empty
slice. -/
theorem Header.roundTrip_of_roundTrips {W : Type} (J : JSON W) (hJ : J.RoundTrips)
    (h receiver : Header)
    (hDifficulty : h.Difficulty.fits256Bits = true)
    (hNumber : h.Number.fits256Bits = true)
    (hGasLimit : h.GasLimit.fits256Bits = true)
    (hGasUsed : h.GasUsed.fits256Bits = true)
    (hTime : h.Time.fits256Bits = true) :
    ∃ out : W, h.MarshalJSON J = .ok out ∧
      receiver.UnmarshalJSON J out = ({ h with Extra := some (h.Extra.getD []) }, none) := by
  obtain ⟨out, hm, hu⟩ := hJ
    { ParentHash := h.ParentHash, Coinbase := h.Coinbase, Root := h.Root,
      TxHash := h.TxHash, ReceiptHash := h.ReceiptHash, Bloom := h.Bloom,
      Difficulty := h.Difficulty, Number := h.Number, GasLimit := h.GasLimit,
      GasUsed := h.GasUsed, Time := h.Time, Extra := h.Extra, Hash := J.Hash h }
    hDifficulty hNumber hGasLimit hGasUsed hTime
  refine ⟨out, hm, ?_⟩
  obtain ⟨a1, a2, a3, a4, a5, a6, b1, b2, b3, b4, b5, ex⟩ := h
  cases b1 <;> simp [BigPtr.fits256Bits] at hDifficulty
  cases b2 <;> simp [BigPtr.fits256Bits] at hNumber
  cases b3 <;> simp [BigPtr.fits256Bits] at hGasLimit
  cases b4 <;> simp [BigPtr.fits256Bits] at hGasUsed
  cases b5 <;> simp [BigPtr.fits256Bits] at hTime
  simp [Header.UnmarshalJSON, hu, encHeader.decoded]

/-- C5, as stated, fails: the header `hugeHeader` has its five integers non-nil and
non-negative, `MarshalJSON` succeeds on it, and `UnmarshalJSON` of the output returns an
error and leaves the receiver as it was, because `Difficulty` = 2^256 has 65 hex digits and
`hexutil.Big` reads back 64 at most. -/
theorem header_json_roundTrip_fails_above_256_bits :
    hugeHeader.Difficulty.isNonNegative = true ∧ hugeHeader.Number.isNonNegative = true ∧
    hugeHeader.GasLimit.isNonNegative = true ∧ hugeHeader.GasUsed.isNonNegative = true ∧
    hugeHeader.Time.isNonNegative = true ∧
    (hugeHeader.roundTrip objectJSON staleHeader).map (fun r => (r.1, r.2.isSome))
      = .ok (staleHeader, true) := by
  refine ⟨rfl, rfl, rfl, rfl, rfl, ?_⟩
  rfl

/-- C5, amended. Header JSON round trip on the modelled JSON layer: for every header `h`
whose `Difficulty`, `Number`, `GasLimit`, `GasUsed` and `Time` are non-nil, non-negative and
of at most 256 bits, `h.MarshalJSON()` succeeds and `UnmarshalJSON` of its output, on any
receiver, returns a nil error and leaves the receiver equal to `h` in all twelve fields,
a nil `Extra` having become the empty slice. -/
theorem header_json_roundTrip (h receiver : Header)
    (hDifficulty : h.Difficulty.fits256Bits = true)
    (hNumber : h.Number.fits256Bits = true)
    (hGasLimit : h.GasLimit.fits256Bits = true)
    (hGasUsed : h.GasUsed.fits256Bits = true)
    (hTime : h.Time.fits256Bits = true) :
    ∃ out : Option JSONObject, h.MarshalJSON objectJSON = .ok out ∧
      receiver.UnmarshalJSON objectJSON out
        = ({ h with Extra := some (h.Extra.getD []) }, none) ∧
      h.roundTrip objectJSON receiver
        = .ok ({ h with Extra := some (h.Extra.getD []) }, none) := by
  obtain ⟨out, hm, hu⟩ := Header.roundTrip_of_roundTrips objectJSON objectJSON_roundTrips h
    receiver hDifficulty hNumber hGasLimit hGasUsed hTime
  refine ⟨out, hm, hu, ?_⟩
  simp only [Header.roundTrip, hm, hu]

theorem header_json_roundTrip_witness :
    sampleHeader.Difficulty.fits256Bits = true ∧
    sampleHeader.Number.fits256Bits = true ∧ sampleHeader.GasLimit.fits256Bits = true ∧
    sampleHeader.GasUsed.fits256Bits = true ∧ sampleHeader.Time.fits256Bits = true ∧
    ∃ out : Option JSONObject, sampleHeader.MarshalJSON objectJSON = .ok out ∧
      staleHeader.UnmarshalJSON objectJSON out
        = ({ sampleHeader with Extra := some (sampleHeader.Extra.getD []) }, none) ∧
      sampleHeader.roundTrip objectJSON staleHeader
        = .ok ({ sampleHeader with Extra := some (sampleHeader.Extra.getD []) }, none) :=
  ⟨by decide, by decide, by decide, by decide, by decide,
    header_json_roundTrip sampleHeader staleHeader (by decide) (by decide) (by decide)
      (by decide) (by decide)⟩

/-- C6. For every input that `json.Unmarshal` parses into the wire struct `dec`:
`UnmarshalJSON` returns the error "missing required field '<name>' for Header" for the
first required field, in the order of the claim, that is absent from `dec`, and returns nil
when there is none; so it returns nil if and only if all twelve fields are present. -/
theorem unmarshalJSON_required_fields {W : Type} (J : JSON W) (h : Header) (input : W)
    (dec : decHeader) (hparse : J.Unmarshal input = .ok dec) :
    (h.UnmarshalJSON J input).2 = dec.firstAbsent.map missingRequiredField ∧
      ((h.UnmarshalJSON J input).2 = none ↔
        ∀ f ∈ dec.requiredFields, f.2 = true) := by
  obtain ⟨a1, a2, a3, a4, a5, a6, a7, a8, a9, a10, a11, a12⟩ := dec
  simp only [Header.UnmarshalJSON, hparse]
  cases a1
  · simp [decHeader.firstAbsent, decHeader.requiredFields, missingRequiredField]
  cases a2
  · simp [decHeader.firstAbsent, decHeader.requiredFields, missingRequiredField]
  cases a3
  · simp [decHeader.firstAbsent, decHeader.requiredFields, missingRequiredField]
  cases a4
  · simp [decHeader.firstAbsent, decHeader.requiredFields, missingRequiredField]
  cases a5
  · simp [decHeader.firstAbsent, decHeader.requiredFields, missingRequiredField]
  cases a6
  · simp [decHeader.firstAbsent, decHeader.requiredFields, missingRequiredField]
  cases a7
  · simp [decHeader.firstAbsent, decHeader.requiredFields, missingRequiredField]
  cases a8
  · simp [decHeader.firstAbsent, decHeader.requiredFields, missingRequiredField]
  cases a9
  · simp [decHeader.firstAbsent, decHeader.requiredFields, missingRequiredField]
  cases a10
  · simp [decHeader.firstAbsent, decHeader.requiredFields, missingRequiredField]
  cases a11
  · simp [decHeader.firstAbsent, decHeader.requiredFields, missingRequiredField]
  cases a12
  · simp [decHeader.firstAbsent, decHeader.requiredFields, missingRequiredField]
  simp [decHeader.firstAbsent, decHeader.requiredFields, missingRequiredField]

theorem unmarshalJSON_required_fields_witness :
    objectJSON.Unmarshal inputWithoutNumber = .ok decWithoutNumber ∧
    ((staleHeader.UnmarshalJSON objectJSON inputWithoutNumber).2
        = decWithoutNumber.firstAbsent.map missingRequiredField ∧
      ((staleHeader.UnmarshalJSON objectJSON inputWithoutNumber).2 = none ↔
        ∀ f ∈ decWithoutNumber.requiredFields, f.2 = true)) ∧
    (staleHeader.UnmarshalJSON objectJSON inputWithoutNumber).2
      = some "missing required field 'number' for Header" :=
  ⟨rfl, unmarshalJSON_required_fields objectJSON staleHeader inputWithoutNumber
    decWithoutNumber rfl, by decide⟩

/-- C14. `UnmarshalJSON` is not atomic on a missing-field error. When the input parses into
the wire struct `dec` and a required field is absent, the call returns the error for the
first absent field, the `k`-th in the check order, and leaves the receiver with its first
`k - 1` fields overwritten by the values of the input and with the `k`-th and all later
fields as they were before the call. When the input does not parse, the call returns the
error of `json.Unmarshal` and the receiver is unchanged. -/
theorem unmarshalJSON_partial_update {W : Type} (J : JSON W) (h : Header) (input : W) :
    (∀ dec : decHeader, J.Unmarshal input = .ok dec → dec.firstAbsent ≠ none →
      dec.presentPrefix < 12 ∧
      (dec.requiredFields.get? dec.presentPrefix).map (fun f => f.1) = dec.firstAbsent ∧
      (h.UnmarshalJSON J input).2 = dec.firstAbsent.map missingRequiredField ∧
      (h.UnmarshalJSON J input).1 = h.overwritten dec dec.presentPrefix) ∧
    (∀ err : String, J.Unmarshal input = .error err →
      h.UnmarshalJSON J input = (h, some err)) := by
  constructor
  · intro dec hparse habsent
    obtain ⟨a1, a2, a3, a4, a5, a6, a7, a8, a9, a10, a11, a12⟩ := dec
    obtain ⟨h1, h2, h3, h4, h5, h6, h7, h8, h9, h10, h11, h12⟩ := h
    simp only [Header.UnmarshalJSON, hparse]
    cases a1
    · simp [decHeader.firstAbsent, decHeader.requiredFields, missingRequiredField,
        decHeader.presentPrefix, Header.overwritten]
    cases a2
    · simp [decHeader.firstAbsent, decHeader.requiredFields, missingRequiredField,
        decHeader.presentPrefix, Header.overwritten]
    cases a3
    · simp [decHeader.firstAbsent, decHeader.requiredFields, missingRequiredField,
        decHeader.presentPrefix, Header.overwritten]
    cases a4
    · simp [decHeader.firstAbsent, decHeader.requiredFields, missingRequiredField,
        decHeader.presentPrefix, Header.overwritten]
    cases a5
    · simp [decHeader.firstAbsent, decHeader.requiredFields, missingRequiredField,
        decHeader.presentPrefix, Header.overwritten]
    cases a6
    · simp [decHeader.firstAbsent, decHeader.requiredFields, missingRequiredField,
        decHeader.presentPrefix, Header.overwritten]
    cases a7
    · simp [decHeader.firstAbsent, decHeader.requiredFields, missingRequiredField,
        decHeader.presentPrefix, Header.overwritten]
    cases a8
    · simp [decHeader.firstAbsent, decHeader.requiredFields, missingRequiredField,
        decHeader.presentPrefix, Header.overwritten]
    cases a9
    · simp [decHeader.firstAbsent, decHeader.requiredFields, missingRequiredField,
        decHeader.presentPrefix, Header.overwritten]
    cases a10
    · simp [decHeader.firstAbsent, decHeader.requiredFields, missingRequiredField,
        decHeader.presentPrefix, Header.overwritten]
    cases a11
    · simp [decHeader.firstAbsent, decHeader.requiredFields, missingRequiredField,
        decHeader.presentPrefix, Header.overwritten]
    cases a12
    · simp [decHeader.firstAbsent, decHeader.requiredFields, missingRequiredField,
        decHeader.presentPrefix, Header.overwritten]
    simp [decHeader.firstAbsent, decHeader.requiredFields] at habsent
  · intro err hparse
    simp only [Header.UnmarshalJSON, hparse]

theorem unmarshalJSON_partial_update_witness :
    objectJSON.Unmarshal inputWithoutNumber = .ok decWithoutNumber ∧
    decWithoutNumber.firstAbsent ≠ none ∧
    decWithoutNumber.presentPrefix = 7 ∧
    (staleHeader.UnmarshalJSON objectJSON inputWithoutNumber).1
      = staleHeader.overwritten decWithoutNumber decWithoutNumber.presentPrefix ∧
    (staleHeader.UnmarshalJSON objectJSON inputWithoutNumber).1.Difficulty = some 131072 ∧
    staleHeader.Difficulty = none ∧
    (staleHeader.UnmarshalJSON objectJSON inputWithoutNumber).1.Number = some 7 ∧
    (staleHeader.UnmarshalJSON objectJSON inputWithoutNumber).1.Extra = some [1, 2] ∧
    objectJSON.Unmarshal malformedInput
      = .error "invalid character looking for beginning of value" ∧
    staleHeader.UnmarshalJSON objectJSON malformedInput
      = (staleHeader, some "invalid character looking for beginning of value") :=
  ⟨rfl, by decide, by decide,
    ((unmarshalJSON_partial_update objectJSON staleHeader inputWithoutNumber).1
      decWithoutNumber rfl (by decide)).2.2.2,
    by decide, rfl, by decide, by decide, rfl,
    (unmarshalJSON_partial_update objectJSON staleHeader malformedInput).2 _ rfl⟩

end types

namespace whisper

/-- A mesh with no packet in flight is left as it is by the relay, whatever the fuel. -/
theorem Network.relay_quiescent (fuel : Nat) (net : Network) (h : net.inflight = []) :
    net.relay fuel = net := by
  cases fuel with
  | zero => rfl
  | succ n => simp [Network.relay, h]

/-- C7. On a node with zero connected peers, whatever its role, the request and the rest of
the mesh, a post is rejected with ErrNoPeers: the relay policy decides NoPeers for either
role, `post` returns ErrNoPeers (not ErrNoFullPeers, not an acceptance), and the RPC helper
returns the error with code −32000 and the message of ErrNoPeers, which prints as
"-32000 " followed by that message. -/
theorem post_without_peers (net : Network) (sender : Nat) (req : PostRequest) (nonce : Nat)
    (hpeers : (net.nodes sender).peers = []) :
    (∀ role : PeerRole, relayPolicy role [] = RelayDecision.NoPeers) ∧
      net.post sender req nonce = .error PostError.ErrNoPeers ∧
      (∀ (key : SymmetricKey) (topic : Topic) (payload : Payload),
        postMessage net sender key topic payload nonce
          = (some { Code := -32000, Message := PostError.ErrNoPeers.Error }, net)) ∧
      (rpcError PostError.ErrNoPeers).Error = "-32000 " ++ PostError.ErrNoPeers.Error := by
  refine ⟨fun role => by simp [relayPolicy], ?_, ?_, by decide⟩
  · simp [Network.post, hpeers, relayPolicy]
  · intro key topic payload
    simp [postMessage, Network.post, hpeers, relayPolicy, rpcError]

theorem post_without_peers_witness :
    ((twoNodes true false 100 50 testVerify testMinPow).nodes 1).peers = [] ∧
    (twoNodes true false 100 50 testVerify testMinPow).post 1
        { key := EncryptionKey.symmetric testKey, topic := testTopic, payload := testPayload,
          powTarget := 2 / 10, powTime := 1 } 7
      = .error PostError.ErrNoPeers :=
  ⟨by decide,
    (post_without_peers (twoNodes true false 100 50 testVerify testMinPow) 1 _ 7
      (by decide)).2.1⟩

/-- C8. On a node with at least one connected peer: when the local role is Light and every
connected peer is Light, a post is rejected with ErrNoFullPeers, which the RPC helper
returns with code −32000 and the message of ErrNoFullPeers; when the local role is Full or
some connected peer is Full, the relay policy accepts and `post` returns the mesh in which
the sealed envelope has been accepted at the sender. -/
theorem post_with_peers (net : Network) (sender : Nat) (req : PostRequest) (nonce : Nat)
    (hpeers : (net.nodes sender).peers ≠ []) :
    ((net.nodes sender).role = PeerRole.Light →
      (∀ p ∈ (net.nodes sender).peers, (net.nodes p).role = PeerRole.Light) →
        net.post sender req nonce = .error PostError.ErrNoFullPeers ∧
        (∀ (key : SymmetricKey) (topic : Topic) (payload : Payload),
          postMessage net sender key topic payload nonce
            = (some { Code := -32000, Message := PostError.ErrNoFullPeers.Error }, net)) ∧
        (rpcError PostError.ErrNoFullPeers).Error
          = "-32000 " ++ PostError.ErrNoFullPeers.Error) ∧
    ((net.nodes sender).role = PeerRole.Full ∨
        (∃ p ∈ (net.nodes sender).peers, (net.nodes p).role = PeerRole.Full) →
      relayPolicy (net.nodes sender).role
          ((net.nodes sender).peers.map (fun p => (net.nodes p).role))
        = RelayDecision.Accepted ∧
      net.post sender req nonce
        = .ok (net.accept sender none
            (sealEnvelope req.payload req.topic req.key req.powTarget req.powTime net.now
              net.defaultTTL nonce))) := by
  have hlen : ((net.nodes sender).peers.map (fun p => (net.nodes p).role)).length ≠ 0 := by
    simpa using hpeers
  constructor
  · intro hrole hall
    have hnone : ((net.nodes sender).peers.map (fun p => (net.nodes p).role)).filter
        (fun r => r = PeerRole.Full) = [] := by
      simp only [List.filter_eq_nil_iff, List.mem_map]
      rintro r ⟨p, hp, rfl⟩
      simp [hall p hp]
    have hpol : relayPolicy (net.nodes sender).role
        ((net.nodes sender).peers.map (fun p => (net.nodes p).role))
        = RelayDecision.LightWithoutFull := by
      unfold relayPolicy
      rw [if_neg hlen, if_pos ⟨hrole, by rw [hnone]; rfl⟩]
    refine ⟨?_, ?_, by decide⟩
    · simp only [Network.post, hpol]
    · intro key topic payload
      simp only [postMessage, Network.post, hpol, rpcError]
  · intro h
    have hpol : relayPolicy (net.nodes sender).role
        ((net.nodes sender).peers.map (fun p => (net.nodes p).role))
        = RelayDecision.Accepted := by
      unfold relayPolicy
      rw [if_neg hlen, if_neg]
      rintro ⟨hrole, hzero⟩
      rcases h with h | ⟨p, hp, hfull⟩
      · rw [hrole] at h
        exact absurd h (by decide)
      · have hmem : PeerRole.Full ∈ ((net.nodes sender).peers.map
            (fun p => (net.nodes p).role)).filter (fun r => r = PeerRole.Full) := by
          simp only [List.mem_filter, List.mem_map, decide_eq_true_eq, and_true]
          exact ⟨p, hp, hfull⟩
        rw [List.length_eq_zero] at hzero
        rw [hzero] at hmem
        exact absurd hmem (List.not_mem_nil _)
    exact ⟨hpol, by simp only [Network.post, hpol]⟩

theorem post_with_peers_witness :
    ((threeNodes true true true 100 50 testVerify testMinPow).nodes 1).peers ≠ [] ∧
    (threeNodes true true true 100 50 testVerify testMinPow).post 1
        { key := EncryptionKey.symmetric testKey, topic := testTopic, payload := testPayload,
          powTarget := 2 / 10, powTime := 1 } 7
      = .error PostError.ErrNoFullPeers ∧
    ((threeNodes false true true 100 50 testVerify testMinPow).nodes 1).peers ≠ [] ∧
    relayPolicy ((threeNodes false true true 100 50 testVerify testMinPow).nodes 1).role
        (((threeNodes false true true 100 50 testVerify testMinPow).nodes 1).peers.map
          (fun p => ((threeNodes false true true 100 50 testVerify testMinPow).nodes p).role))
      = RelayDecision.Accepted :=
  ⟨by decide,
    ((post_with_peers (threeNodes true true true 100 50 testVerify testMinPow) 1 _ 7 (by decide)).1
      (by decide) (by decide)).1,
    by decide,
    ((post_with_peers (threeNodes false true true 100 50 testVerify testMinPow) 1
      { key := EncryptionKey.symmetric testKey, topic := testTopic, payload := testPayload,
        powTarget := 2 / 10, powTime := 1 } 7 (by decide)).2
      (Or.inr ⟨0, by decide, by decide⟩)).1⟩

/-- Accepting an envelope keeps what a node has seen. -/
theorem Node.seen_accepted_of_seen (n : Node) (env e : Envelope) (now : Nat)
    (h : n.seen e now = true) : (n.accepted env now).seen e now = true := by
  simp only [Node.accepted, Node.seen, Node.markSeen, Node.onEnvelope, List.any_cons] at h ⊢
  simp [h]

set_option maxHeartbeats 4000000 in
/-- The run of the tests' mesh in which the receiver's filter holds another key than the
sender's: the post returns no error and the receiver polls nothing, whatever the fuel and
the proof of work. -/
theorem sendMessage_other_key (K K' : SymmetricKey) (hne : K ≠ K') (payload : Payload)
    (topic : Topic) (fullnodeLight senderLight receiverLight : Bool)
    (now ttl nonce fuel : Nat) (verify : Envelope → Rat) (minPow : Rat)
    (hpolicy : relayPolicy (startNode senderLight).role [(startNode fullnodeLight).role]
      = RelayDecision.Accepted) :
    ∃ run : TestRun,
      sendMessage (threeNodes fullnodeLight senderLight receiverLight now ttl verify minPow)
        1 2 K K' topic payload nonce fuel = some run ∧
      run.postError = none ∧ run.received = [] := by
  by_cases hpw : verify (sealEnvelope payload topic (EncryptionKey.symmetric K) (2 / 10) 1
      now ttl nonce) < minPow <;>
  simp only [sealEnvelope] at hpw <;>
  rcases fuel with _ | _ | f <;>
  cases fullnodeLight <;> cases senderLight <;> cases receiverLight <;>
    simp [relayPolicy, startNode] at hpolicy <;>
    simp [sendMessage, threeNodes, Network.init, Network.start, addPeer,
      createChatMessageFilter, Node.register, getMessagesByMessageFilterID, Node.poll,
      postMessage, Network.post, relayPolicy, startNode, Network.accept, Node.seen,
      Node.markSeen, Node.onEnvelope, Filter.onEnvelope, tryDecrypt, sealEnvelope,
      Network.fanOut, Network.relay, Network.step, Function.update_apply,
      Network.relay_quiescent, hne, hpw]

/-- C10. For every payload, topic and two different symmetric keys `K` and `K'`: on an
envelope sealed under `K`, `tryDecrypt` with `K'` returns NoMatch; a filter that holds `K'`
is left as it is by the envelope, whatever its topics; and in the mesh of the tests, with
the sender posting under `K` and the receiver's filter holding `K'` on the same topic, the
post returns no error when the relay policy accepts the sender, and polling the receiver's
filter returns no message, however far the relay has got. -/
theorem wrong_key_no_match (K K' : SymmetricKey) (hne : K ≠ K') (payload : Payload)
    (topic : Topic) :
    (∀ (powTarget : Rat) (powTime now ttl nonce : Nat),
      tryDecrypt
          (sealEnvelope payload topic (EncryptionKey.symmetric K) powTarget powTime now ttl
            nonce)
          (DecryptionKey.symmetric K') = none) ∧
    (∀ (f : Filter) (powTarget : Rat) (powTime now ttl nonce arrival : Nat),
      f.key = DecryptionKey.symmetric K' →
      f.onEnvelope
          (sealEnvelope payload topic (EncryptionKey.symmetric K) powTarget powTime now ttl
            nonce) arrival = f) ∧
    (∀ (fullnodeLight senderLight receiverLight : Bool) (now ttl nonce fuel : Nat)
        (verify : Envelope → Rat) (minPow : Rat),
      relayPolicy (startNode senderLight).role [(startNode fullnodeLight).role]
        = RelayDecision.Accepted →
      ∃ run : TestRun,
        sendMessage (threeNodes fullnodeLight senderLight receiverLight now ttl verify minPow)
          1 2 K K' topic payload nonce fuel = some run ∧
        run.postError = none ∧ run.received = []) := by
  have hdec : ∀ (powTarget : Rat) (powTime now ttl nonce : Nat),
      tryDecrypt
          (sealEnvelope payload topic (EncryptionKey.symmetric K) powTarget powTime now ttl
            nonce)
          (DecryptionKey.symmetric K') = none := by
    intro powTarget powTime now ttl nonce
    simp [tryDecrypt, sealEnvelope, hne]
  refine ⟨hdec, ?_, ?_⟩
  · intro f powTarget powTime now ttl nonce arrival hkey
    unfold Filter.onEnvelope
    rw [hkey, hdec]
    simp
  · intro fullnodeLight senderLight receiverLight now ttl nonce fuel verify minPow hpolicy
    exact sendMessage_other_key K K' hne payload topic fullnodeLight senderLight
      receiverLight now ttl nonce fuel verify minPow hpolicy

theorem wrong_key_no_match_witness :
    testKey ≠ wrongKey ∧
    tryDecrypt
        (sealEnvelope testPayload testTopic (EncryptionKey.symmetric testKey) (2 / 10) 1 100
          50 7)
        (DecryptionKey.symmetric wrongKey) = none ∧
    relayPolicy (startNode false).role [(startNode false).role] = RelayDecision.Accepted ∧
    ∃ run : TestRun,
      sendMessage (threeNodes false false false 100 50 testVerify testMinPow) 1 2 testKey
        wrongKey testTopic testPayload 7 5 = some run ∧
      run.postError = none ∧ run.received = [] :=
  ⟨by decide,
    (wrong_key_no_match testKey wrongKey (by decide) testPayload testTopic).1 (2 / 10) 1 100
      50 7,
    by decide,
    (wrong_key_no_match testKey wrongKey (by decide) testPayload testTopic).2.2
      false false false 100 50 7 5 testVerify testMinPow (by decide)⟩

end whisper
